import Mathlib

/-!
Shallow embedding of the J.A.R.V.I.S. core coordination layer:
the event bus (src/jarvis/core/event_bus.py) and the context manager
(src/jarvis/core/context_manager.py).

Modelling conventions:
- machine time (datetime.now()) is passed in explicitly as a natural number;
- Python dicts become association lists with insert-or-replace semantics
  preserving insertion order, exactly like CPython dicts;
- handler callables become natural-number handler ids together with a
  behaviour function mapping a handler id and an event to an Except value
  (error = the handler raised);
- payload values (Python Any) are modelled as strings;
- the asyncio.PriorityQueue heap is modelled faithfully at the level of
  the heapq list algorithms, including the TypeError that CPython raises
  when a tuple comparison falls through to comparing two Event dataclass
  instances (Event defines no ordering).
-/

namespace Jarvis

/-- Python dict lookup `m.get(k)` over an association list. -/
def dictLookup (m : List (String × α)) (k : String) : Option α :=
  match m with
  | [] => none
  | (k2, v) :: rest => if k2 = k then some v else dictLookup rest k

/-- Python dict assignment `m[k] = v`: replaces in place when the key is
present (keeping its position, as CPython dicts do), appends otherwise. -/
def dictSet (m : List (String × α)) (k : String) (v : α) : List (String × α) :=
  match m with
  | [] => [(k, v)]
  | (k2, v2) :: rest => if k2 = k then (k, v) :: rest else (k2, v2) :: dictSet rest k v

/-- Python `del m[k]`. -/
def dictDelete (m : List (String × α)) (k : String) : List (String × α) :=
  m.filter (fun p => !(p.1 == k))

/-- Truthiness of an `Optional[str]` Python value: `None` and the empty
string are falsy. -/
def strOptTruthy : Option String → Bool
  | none => false
  | some s => !(s == "")

/-- Python `s.startswith(p)`. -/
def pyStartswith (s p : String) : Bool :=
  p.data.isPrefixOf s.data

/-! ### Event bus data model (event_bus.py) -/

/-- `EventPriority` enum; `value` gives the declared numeric values. -/
inductive EventPriority where
  | CRITICAL
  | HIGH
  | NORMAL
  | LOW
deriving DecidableEq

def EventPriority.value : EventPriority → Nat
  | .CRITICAL => 1
  | .HIGH => 2
  | .NORMAL => 3
  | .LOW => 4

/-- The `Event` dataclass. `data` is a string-keyed mapping; the dataclass
derives structural equality and no ordering. -/
structure Event where
  type : String
  data : List (String × String)
  timestamp : Nat
  priority : EventPriority := .NORMAL
  source_module : Option String := none
  correlation_id : Option String := none
deriving DecidableEq

instance : Inhabited Event := ⟨⟨"", [], 0, .NORMAL, none, none⟩⟩

/-- A queue item is the tuple `(event.priority.value, event)` that
`EventBus.publish` pushes onto the asyncio.PriorityQueue. -/
abbrev QItem := Nat × Event

/-- CPython comparison `item1 < item2` on `(int, Event)` tuples: compares
the ints first; on a tie it falls through to `Event.__lt__`, which does not
exist, raising TypeError (modelled as `Except.error ()`), unless the two
events are structurally equal, in which case the tuples are equal and `<`
is False. -/
def qItemLt (a b : QItem) : Except Unit Bool :=
  if a.1 = b.1 then
    if a.2 = b.2 then .ok false else .error ()
  else .ok (decide (a.1 < b.1))

/-- `heapq._siftdown(heap, startpos, pos)` made functional. The result flag
is false when a comparison raised TypeError; in that case the heap is
returned exactly as the mutation left it (CPython mutates in place, so a
raising push still leaves the appended item in the list). The fuel is an
upper bound on loop iterations; `pos` strictly decreases each round, so any
fuel at least `pos` is exact. -/
def siftdown (fuel : Nat) (newitem : QItem) (heap : List QItem)
    (pos startpos : Nat) : Bool × List QItem :=
  match fuel with
  | 0 => (true, heap.set pos newitem)
  | fuel + 1 =>
    if startpos < pos then
      let parentpos := (pos - 1) / 2
      let parent := heap.getD parentpos default
      match qItemLt newitem parent with
      | .error _ => (false, heap)
      | .ok true => siftdown fuel newitem (heap.set pos parent) parentpos startpos
      | .ok false => (true, heap.set pos newitem)
    else (true, heap.set pos newitem)

/-- `heapq.heappush(heap, item)`: append, then sift down from the last
position. -/
def heappush (heap : List QItem) (item : QItem) : Bool × List QItem :=
  let h := heap ++ [item]
  siftdown h.length item h heap.length 0

/-- State of an `EventBus` instance: subscriber table, the priority-queue
heap list, the running flag, and the bounded event history. -/
structure BusState where
  subscribers : List (String × List Nat)
  queue : List QItem
  running : Bool
  history : List Event
deriving DecidableEq

/-- A freshly constructed `EventBus()`. -/
def BusState.init : BusState := ⟨[], [], false, []⟩

/-- `EventBus._max_history`. -/
def max_history : Nat := 1000

namespace EventBus

/-- `EventBus.start`: idempotent; sets the running flag (the spawned
processor task is represented by the flag). -/
def start (st : BusState) : BusState :=
  if st.running then st else { st with running := true }

/-- `EventBus.subscribe(event_type, handler)`. -/
def subscribe (st : BusState) (event_type : String) (handler : Nat) :
    Bool × BusState :=
  let subs :=
    if (dictLookup st.subscribers event_type).isNone then
      dictSet st.subscribers event_type []
    else st.subscribers
  let lst := (dictLookup subs event_type).getD []
  if lst.contains handler then
    (false, { st with subscribers := subs })
  else
    (true, { st with subscribers := dictSet subs event_type (lst ++ [handler]) })

/-- `EventBus.unsubscribe(event_type, handler)`. -/
def unsubscribe (st : BusState) (event_type : String) (handler : Nat) :
    Bool × BusState :=
  match dictLookup st.subscribers event_type with
  | none => (false, st)
  | some lst =>
    if lst.contains handler then
      (true, { st with subscribers := dictSet st.subscribers event_type (lst.erase handler) })
    else (false, st)

/-- `EventBus.publish(event)`: auto-start, push `(priority.value, event)`
onto the heap, then append to history and evict the oldest entry past the
cap. A TypeError raised inside the push is caught by the except clause:
publish returns False and the history is not touched, but the heap keeps
whatever the partial mutation left there. -/
def publish (st : BusState) (e : Event) : Bool × BusState :=
  let st := start st
  match heappush st.queue (e.priority.value, e) with
  | (false, q) => (false, { st with queue := q })
  | (true, q) =>
    let h := st.history ++ [e]
    let h := if h.length > max_history then h.drop 1 else h
    (true, { st with queue := q, history := h })

/-- `EventBus.get_event_history(event_type, limit)`: copy of the history,
optionally filtered by type (the filter is skipped for a falsy event_type),
then `history[-limit:] if limit else history`. -/
def get_event_history (st : BusState) (event_type : Option String := none)
    (limit : Nat := 100) : List Event :=
  let history := st.history
  let history :=
    if strOptTruthy event_type then
      history.filter (fun e => e.type == event_type.getD "")
    else history
  if limit ≠ 0 then history.drop (history.length - limit) else history

/-- `EventBus.get_subscriber_count(event_type)`. -/
def get_subscriber_count (st : BusState) (event_type : String) : Nat :=
  ((dictLookup st.subscribers event_type).getD []).length

/-- Behaviour of the handler callables: a handler id applied to an event
either returns normally or raises (Except.error with the message). -/
abbrev HandlerBehavior := Nat → Event → Except String Unit

/-- `EventBus._call_handler(handler, event)`: invokes the handler; the
try/except logs and re-raises, so the outcome is the handler outcome. -/
def call_handler (behavior : HandlerBehavior) (handler : Nat) (e : Event) :
    Except String Unit :=
  behavior handler e

/-- `EventBus._distribute_event(event)`: snapshot the subscriber list for
the event type and invoke every handler, gathering all outcomes
(`asyncio.gather` with return_exceptions=True); errors are logged and
swallowed, so the function itself always returns normally, with one
outcome per subscribed handler. -/
def distribute_event (behavior : HandlerBehavior)
    (subscribers : List (String × List Nat)) (e : Event) :
    List (Nat × Except String Unit) :=
  match dictLookup subscribers e.type with
  | none => []
  | some lst => lst.map (fun h => (h, call_handler behavior h e))

/-- `EventBus._process_events` restricted to a given sequence of dequeued
events: the loop distributes each event in turn and its per-iteration
try/except means no handler failure ever terminates it, so it is a total
map from events to their distribution outcomes. -/
def process_events (behavior : HandlerBehavior)
    (subscribers : List (String × List Nat)) (events : List Event) :
    List (Event × List (Nat × Except String Unit)) :=
  events.map (fun e => (e, distribute_event behavior subscribers e))

/-- Publish a batch of events in order, collecting each publish result. -/
def publish_all (st : BusState) (events : List Event) : List Bool × BusState :=
  match events with
  | [] => ([], st)
  | e :: rest =>
    let r := publish st e
    let rs := publish_all r.2 rest
    (r.1 :: rs.1, rs.2)

/-- End-to-end scenario: publish a batch, then let the dispatch loop fan
out the queued events (shown here in queue-content order; dispatch order
is settled separately by the priority-queue analysis). The first component
is exactly what the publishers observe. -/
def run (behavior : HandlerBehavior) (st : BusState) (events : List Event) :
    List Bool × List (Event × List (Nat × Except String Unit)) :=
  let r := publish_all st events
  (r.1, process_events behavior r.2.subscribers (r.2.queue.map (fun q => q.2)))

end EventBus

/-! ### Context manager data model (context_manager.py) -/

/-- `ContextScope` enum. -/
inductive ContextScope where
  | SESSION
  | USER
  | GLOBAL
  | TASK
deriving DecidableEq

/-- The `.value` strings of the `ContextScope` members. -/
def ContextScope.value : ContextScope → String
  | .SESSION => "session"
  | .USER => "user"
  | .GLOBAL => "global"
  | .TASK => "task"

/-- The `ContextEntry` dataclass. Payload values are modelled as strings. -/
structure ContextEntry where
  key : String
  value : String
  scope : ContextScope
  created_at : Nat
  expires_at : Option Nat := none
  metadata : List (String × String) := []
deriving DecidableEq

/-- `ContextEntry.is_expired`: `datetime.now() > expires_at`, with a
None expiry never expired. The current time is passed in. -/
def ContextEntry.is_expired (e : ContextEntry) (now : Nat) : Bool :=
  match e.expires_at with
  | none => false
  | some t => decide (now > t)

/-- The `UserContext` dataclass. Conversation messages are string-keyed
dicts. -/
structure UserContext where
  user_id : String
  preferences : List (String × String) := []
  conversation_history : List (List (String × String)) := []
  current_tasks : List String := []
  last_activity : Nat
deriving DecidableEq

/-- The `self._contexts` dict: one table per scope, in the insertion
order of `__init__` (session, user, global, task). -/
structure Contexts where
  session_contexts : List (String × ContextEntry)
  user_contexts : List (String × ContextEntry)
  global_contexts : List (String × ContextEntry)
  task_contexts : List (String × ContextEntry)
deriving DecidableEq

/-- `self._contexts[scope.value]` (read). -/
def Contexts.get : Contexts → ContextScope → List (String × ContextEntry)
  | c, .SESSION => c.session_contexts
  | c, .USER => c.user_contexts
  | c, .GLOBAL => c.global_contexts
  | c, .TASK => c.task_contexts

/-- `self._contexts[scope.value]` (write back one scope table). -/
def Contexts.put : Contexts → ContextScope → List (String × ContextEntry) → Contexts
  | c, .SESSION, t => { c with session_contexts := t }
  | c, .USER, t => { c with user_contexts := t }
  | c, .GLOBAL, t => { c with global_contexts := t }
  | c, .TASK, t => { c with task_contexts := t }

/-- Status of the asyncio cleanup task held in `self._cleanup_task`; a
Task object is truthy whether running or cancelled. -/
inductive TaskStatus where
  | running
  | cancelled
deriving DecidableEq

/-- State of a `ContextManager` instance. -/
structure CMState where
  contexts : Contexts
  user_contexts : List (String × UserContext)
  sessions : List (String × String)
  cleanup_task : Option TaskStatus
deriving DecidableEq

/-- A freshly constructed `ContextManager()`. -/
def CMState.init : CMState := ⟨⟨[], [], [], []⟩, [], [], none⟩

namespace ContextManager

/-- `ContextManager.start`: returns immediately when `self._cleanup_task`
is not None, otherwise spawns the cleanup loop. -/
def start (st : CMState) : CMState :=
  if st.cleanup_task ≠ none then st
  else { st with cleanup_task := some .running }

/-- `ContextManager.stop`: cancels the task when the field is truthy (any
Task object is), and never resets the field to None. -/
def stop (st : CMState) : CMState :=
  match st.cleanup_task with
  | some _ => { st with cleanup_task := some .cancelled }
  | none => st

/-- `ContextManager.create_session(user_id)`: the fresh uuid4 value is
passed in as `session_id`. Records the mapping, lazily creates the
UserContext, and marks activity. -/
def create_session (st : CMState) (now : Nat) (user_id : String)
    (session_id : String) : String × CMState :=
  let sessions := dictSet st.sessions session_id user_id
  let ucs :=
    if (dictLookup st.user_contexts user_id).isNone then
      dictSet st.user_contexts user_id
        { user_id := user_id, last_activity := now }
    else st.user_contexts
  let ucs :=
    match dictLookup ucs user_id with
    | some uc => dictSet ucs user_id { uc with last_activity := now }
    | none => ucs
  (session_id, { st with sessions := sessions, user_contexts := ucs })

/-- `ContextManager.end_session(session_id)`: a no-op for an unknown
session; otherwise drops the mapping and deletes every SESSION-scope key
starting with the `"{session_id}:"` namespace prefix. -/
def end_session (st : CMState) (session_id : String) : CMState :=
  match dictLookup st.sessions session_id with
  | none => st
  | some _ =>
    let sessions := dictDelete st.sessions session_id
    let keep :=
      st.contexts.session_contexts.filter
        (fun p => !(pyStartswith p.1 (session_id ++ ":")))
    { st with sessions := sessions,
              contexts := { st.contexts with session_contexts := keep } }

/-- The effective key: namespaced as `"{session_id}:{key}"` only for
SESSION scope with a truthy session_id. Shared by set, get and remove. -/
def full_key (scope : ContextScope) (session_id : Option String)
    (key : String) : String :=
  if scope == .SESSION && strOptTruthy session_id then
    session_id.getD "" ++ ":" ++ key
  else key

/-- `ContextManager.set_context(key, value, scope, session_id, expires_in,
metadata)`. `expires_in` is guarded by `if expires_in:`, so a zero TTL is
falsy and yields no expiry, exactly like None. Always returns True (the
body has no failing operation). -/
def set_context (st : CMState) (now : Nat) (key value : String)
    (scope : ContextScope) (session_id : Option String := none)
    (expires_in : Option Nat := none)
    (metadata : Option (List (String × String)) := none) : Bool × CMState :=
  let fk := full_key scope session_id key
  let expires_at :=
    match expires_in with
    | some d => if d ≠ 0 then some (now + d) else none
    | none => none
  let entry : ContextEntry :=
    { key := fk, value := value, scope := scope, created_at := now,
      expires_at := expires_at, metadata := metadata.getD [] }
  let cs := st.contexts.put scope (dictSet (st.contexts.get scope) fk entry)
  (true, { st with contexts := cs })

/-- `ContextManager.get_context(key, scope, session_id, default)`: returns
the default for a missing key; an entry observed expired is deleted from
its scope table and the default is returned; otherwise the stored value.
Returns the value together with the (possibly pruned) state. -/
def get_context (st : CMState) (now : Nat) (key : String)
    (scope : ContextScope) (session_id : Option String := none)
    (default : String := "") : String × CMState :=
  let fk := full_key scope session_id key
  let scope_contexts := st.contexts.get scope
  match dictLookup scope_contexts fk with
  | none => (default, st)
  | some entry =>
    if entry.is_expired now then
      let cs := st.contexts.put scope (dictDelete scope_contexts fk)
      (default, { st with contexts := cs })
    else (entry.value, st)

/-- `ContextManager.remove_context(key, scope, session_id)`. -/
def remove_context (st : CMState) (key : String) (scope : ContextScope)
    (session_id : Option String := none) : Bool × CMState :=
  let fk := full_key scope session_id key
  let scope_contexts := st.contexts.get scope
  if (dictLookup scope_contexts fk).isSome then
    let cs := st.contexts.put scope (dictDelete scope_contexts fk)
    (true, { st with contexts := cs })
  else (false, st)

/-- `ContextManager.add_to_conversation_history(user_id, message)`:
get-or-create the UserContext, stamp the message with the current time,
append, cut back to the last 1000 entries when over the cap, and mark
activity. -/
def add_to_conversation_history (st : CMState) (now : Nat) (user_id : String)
    (message : List (String × String)) : Bool × CMState :=
  let uc :=
    match dictLookup st.user_contexts user_id with
    | some uc => uc
    | none => { user_id := user_id, last_activity := now : UserContext }
  let msg := dictSet message "timestamp" (toString now)
  let hist := uc.conversation_history ++ [msg]
  let hist := if hist.length > 1000 then hist.drop (hist.length - 1000) else hist
  let uc := { uc with conversation_history := hist, last_activity := now }
  (true, { st with user_contexts := dictSet st.user_contexts user_id uc })

/-- `ContextManager._cleanup_expired_contexts`: the periodic sweep removing
every expired entry from all four scope tables. -/
def cleanup_expired_contexts (st : CMState) (now : Nat) : CMState :=
  let prune := fun (t : List (String × ContextEntry)) =>
    t.filter (fun p => !(p.2.is_expired now))
  { st with contexts :=
      { session_contexts := prune st.contexts.session_contexts,
        user_contexts := prune st.contexts.user_contexts,
        global_contexts := prune st.contexts.global_contexts,
        task_contexts := prune st.contexts.task_contexts } }

/-- The result shape of `ContextManager.get_stats`. -/
structure Stats where
  active_sessions : Nat
  user_contexts : Nat
  context_counts : List (String × Nat)
deriving DecidableEq

/-- `ContextManager.get_stats`: sizes of the session map, the user map and
each scope table, the latter keyed by scope name in table order. -/
def get_stats (st : CMState) : Stats :=
  { active_sessions := st.sessions.length,
    user_contexts := st.user_contexts.length,
    context_counts :=
      [("session", st.contexts.session_contexts.length),
       ("user", st.contexts.user_contexts.length),
       ("global", st.contexts.global_contexts.length),
       ("task", st.contexts.task_contexts.length)] }

end ContextManager

/-! ### Scenario helpers and concrete fixtures -/

/-- One publish followed by the dispatch loop draining the queue: the
state seen by the next publish when the processor keeps up. -/
def publish_drain (st : BusState) (e : Event) : BusState :=
  let r := EventBus.publish st e
  { r.2 with queue := [] }

/-- The history transformation performed by one successful publish. -/
def histStep (h : List Event) (e : Event) : List Event :=
  let h2 := h ++ [e]
  if h2.length > max_history then h2.drop 1 else h2

/-- The conversation-history transformation performed by one call to
add_to_conversation_history on the stamped message. -/
def convStep (h : List (List (String × String))) (m : List (String × String)) :
    List (List (String × String)) :=
  let h2 := h ++ [m]
  if h2.length > 1000 then h2.drop (h2.length - 1000) else h2

/-- The conversation history recorded for a user (empty when the user has
no UserContext yet). -/
def conv_history_of (st : CMState) (user_id : String) :
    List (List (String × String)) :=
  match dictLookup st.user_contexts user_id with
  | some uc => uc.conversation_history
  | none => []

/-- Current subscriber list of an event type. -/
def subscribers_of (st : BusState) (event_type : String) : List Nat :=
  (dictLookup st.subscribers event_type).getD []

/-- A NORMAL-priority event. -/
def evN : Event := { type := "n", data := [], timestamp := 0 }

/-- A second, structurally different NORMAL-priority event of the same
type. -/
def evN2 : Event := { type := "n", data := [("x", "1")], timestamp := 1 }

/-- A bus that already recorded one event. -/
def busH : BusState := { subscribers := [], queue := [], running := true, history := [evN] }

/-- A context manager holding one TASK entry that expires at time 8. -/
def cmExp : CMState :=
  { contexts :=
      { session_contexts := [], user_contexts := [], global_contexts := [],
        task_contexts :=
          [("k", { key := "k", value := "v", scope := .TASK, created_at := 5,
                   expires_at := some 8 })] },
    user_contexts := [], sessions := [], cleanup_task := none }

/-- Folding an arbitrary sequence of start/stop calls over a context
manager state (true = start, false = stop). -/
def start_stop_fold (ops : List Bool) (s : CMState) : CMState :=
  ops.foldl (fun s b => if b then ContextManager.start s else ContextManager.stop s) s

/-- A handler behaviour where handler 0 raises and every other handler
returns normally. -/
def behW : EventBus.HandlerBehavior :=
  fun h _ => if h = 0 then .error "boom" else .ok ()

/-- The i-th of a family of distinct events of one type. -/
def evI (i : Nat) : Event := { type := "t", data := [], timestamp := i }

/-- 1001 distinct events. -/
def evs1001 : List Event := (List.range 1001).map evI

/-- 1001 distinct conversation messages. -/
def msgs1001 : List (List (String × String)) :=
  (List.range 1001).map (fun i => [("content", toString i)])

/-! ### Dictionary and list lemmas -/

theorem dictLookup_dictSet_self (m : List (String × α)) (k : String) (v : α) :
    dictLookup (dictSet m k v) k = some v := by
  induction m with
  | nil => simp [dictSet, dictLookup]
  | cons p rest ih =>
    by_cases h : p.1 = k
    · simp [dictSet, dictLookup, h]
    · simp [dictSet, dictLookup, h, ih]

theorem dictLookup_dictSet_ne (m : List (String × α)) (k k2 : String) (v : α)
    (h : k2 ≠ k) : dictLookup (dictSet m k v) k2 = dictLookup m k2 := by
  induction m with
  | nil => simp [dictSet, dictLookup, Ne.symm h]
  | cons p rest ih =>
    by_cases hp : p.1 = k
    · simp [dictSet, dictLookup, hp, Ne.symm h]
    · simp [dictSet, dictLookup, hp, ih]

theorem dictLookup_some_pos (m : List (String × α)) (k : String) (v : α)
    (h : dictLookup m k = some v) : 0 < m.length := by
  cases m with
  | nil => simp [dictLookup] at h
  | cons p rest => simp

/-- Looking up a key that satisfies a predicate in a table filtered down to
the entries failing it finds nothing. -/
theorem dictLookup_filter_pred (m : List (String × α)) (p : String → Bool)
    (k : String) (hk : p k = true) :
    dictLookup (m.filter (fun x => !(p x.1))) k = none := by
  induction m with
  | nil => simp [dictLookup]
  | cons q rest ih =>
    by_cases hq : p q.1
    · simpa [List.filter, hq] using ih
    · have hne : q.1 ≠ k := fun he => by rw [he] at hq; exact hq hk
      simp [List.filter, hq, dictLookup, hne, ih]

theorem dictLookup_dictDelete_self (m : List (String × α)) (k : String) :
    dictLookup (dictDelete m k) k = none := by
  have := dictLookup_filter_pred m (fun x => x == k) k (by simp)
  simpa [dictDelete] using this

theorem pyStartswith_append (p r : String) :
    pyStartswith (p ++ r) p = true := by
  rw [pyStartswith, String.data_append, List.isPrefixOf_iff_prefix]
  exact List.prefix_append p.data r.data

theorem Contexts_get_put_self (c : Contexts) (sc : ContextScope)
    (t : List (String × ContextEntry)) : (c.put sc t).get sc = t := by
  cases sc <;> rfl

/-! ### Capped-append folds -/

/-- Folding any step that appends one element and drops back down to a cap
keeps the suffix of the last `cap` elements. -/
theorem foldl_capstep {α : Type} (cap : Nat) (step : List α → α → List α)
    (hstep : ∀ (h : List α) (x : α), h.length ≤ cap →
      step h x = (h ++ [x]).drop ((h.length + 1) - cap) ∧
      (step h x).length ≤ cap) :
    ∀ (l : List α) (h : List α), h.length ≤ cap →
      l.foldl step h = (h ++ l).drop ((h.length + l.length) - cap) ∧
      (l.foldl step h).length ≤ cap := by
  intro l
  induction l with
  | nil =>
    intro h hh
    simp [Nat.sub_eq_zero_of_le hh, hh]
  | cons x rest ih =>
    intro h hh
    obtain ⟨hs, hl⟩ := hstep h x hh
    obtain ⟨ih1, ih2⟩ := ih (step h x) hl
    refine ⟨?_, by simp only [List.foldl_cons]; exact ih2⟩
    rw [List.foldl_cons, ih1, hs]
    by_cases hc : h.length + 1 ≤ cap
    · rw [Nat.sub_eq_zero_of_le hc, List.drop_zero]
      have hlen : (h ++ [x]).length + rest.length - cap =
          h.length + (x :: rest).length - cap := by
        simp; omega
      rw [hlen, List.append_assoc]
      rfl
    · have hcap : h.length = cap := by omega
      have hdlen : ((h ++ [x]).drop ((h.length + 1) - cap)).length + rest.length - cap
          = rest.length := by
        simp [List.length_drop]; omega
      rw [hdlen, ← List.drop_append_of_le_length (by simp), List.drop_drop]
      have hamt : h.length + 1 - cap + rest.length =
          h.length + (x :: rest).length - cap := by
        simp; omega
      rw [hamt, List.append_assoc]
      rfl

/-- `histStep` is a capped append at `max_history`. -/
theorem histStep_spec (h : List Event) (e : Event)
    (hh : h.length ≤ max_history) :
    histStep h e = (h ++ [e]).drop ((h.length + 1) - max_history) ∧
    (histStep h e).length ≤ max_history := by
  rw [histStep]
  simp only [List.length_append, List.length_singleton]
  by_cases hc : h.length + 1 > max_history
  · have h1 : h.length + 1 - max_history = 1 := by
      unfold max_history at *; omega
    simp [hc, h1, List.length_drop]
    omega
  · simp [hc, Nat.sub_eq_zero_of_le (by omega : h.length + 1 ≤ max_history)]
    omega

/-- `convStep` is a capped append at 1000. -/
theorem convStep_spec (h : List (List (String × String)))
    (m : List (String × String)) (hh : h.length ≤ 1000) :
    convStep h m = (h ++ [m]).drop ((h.length + 1) - 1000) ∧
    (convStep h m).length ≤ 1000 := by
  rw [convStep]
  simp only [List.length_append, List.length_singleton]
  by_cases hc : h.length + 1 > 1000
  · simp [hc, List.length_drop]
    omega
  · simp [hc, Nat.sub_eq_zero_of_le (by omega : h.length + 1 ≤ 1000)]
    omega

/-! ### Publish lemmas -/

/-- Publishing onto an empty queue always succeeds: the heap push performs
no comparison, and the history gains the event (evicting past the cap). -/
theorem publish_empty_queue (st : BusState) (e : Event) (hq : st.queue = []) :
    EventBus.publish st e =
      (true, { st with running := true, queue := [(e.priority.value, e)], history := histStep st.history e }) := by
  obtain ⟨subs, q, r, h⟩ := st
  simp only at hq
  subst hq
  cases r <;>
    simp [EventBus.publish, EventBus.start, heappush, siftdown, histStep,
      List.set]

/-- Any publish, successful or failed, keeps the history within the cap. -/
theorem publish_history_le (st : BusState) (e : Event)
    (hh : st.history.length ≤ max_history) :
    ((EventBus.publish st e).2).history.length ≤ max_history := by
  have hs : (EventBus.start st).history = st.history := by
    rw [EventBus.start]; split <;> rfl
  rw [EventBus.publish]
  rcases heappush (EventBus.start st).queue (e.priority.value, e) with ⟨b, q⟩
  cases b
  · simpa [hs] using hh
  · simp only [hs]
    split
    · simp [List.length_drop, List.length_append]
      unfold max_history at *
      omega
    · simp only [List.length_append, List.length_singleton] at *
      omega

theorem publish_drain_eq (st : BusState) (e : Event) (hq : st.queue = []) :
    publish_drain st e =
      { st with running := true, queue := [], history := histStep st.history e } := by
  rw [publish_drain, publish_empty_queue st e hq]

/-- Draining between publishes: the history evolves by `histStep` and the
queue stays empty. -/
theorem foldl_publish_drain (l : List Event) : ∀ st : BusState,
    st.queue = [] →
    (l.foldl publish_drain st).history = l.foldl histStep st.history ∧
    (l.foldl publish_drain st).queue = [] := by
  induction l with
  | nil => intro st hq; exact ⟨rfl, hq⟩
  | cons e rest ih =>
    intro st hq
    rw [List.foldl_cons, publish_drain_eq st e hq]
    have h2 := ih { st with running := true, queue := [], history := histStep st.history e } rfl
    simpa using h2

/-! ### Context set/get lemmas -/

/-- After a set with no TTL, the scope table holds the fresh entry under
the effective key. -/
theorem lookup_after_set (st : CMState) (now : Nat) (k v : String)
    (sc : ContextScope) (sid : Option String)
    (meta : Option (List (String × String))) :
    dictLookup
      (((ContextManager.set_context st now k v sc sid none meta).2).contexts.get sc)
      (ContextManager.full_key sc sid k) =
    some { key := ContextManager.full_key sc sid k, value := v, scope := sc,
           created_at := now, expires_at := none, metadata := meta.getD [] } := by
  rw [ContextManager.set_context]
  simp only
  rw [Contexts_get_put_self]
  exact dictLookup_dictSet_self _ _ _

/-- Round-trip: set with no TTL, then get with the same key, scope and
session id, returns the value just set. -/
theorem get_after_set (st : CMState) (now now2 : Nat) (k v : String)
    (sc : ContextScope) (sid : Option String)
    (meta : Option (List (String × String))) (d : String) :
    (ContextManager.get_context
      (ContextManager.set_context st now k v sc sid none meta).2
      now2 k sc sid d).1 = v := by
  rw [ContextManager.get_context]
  simp only [lookup_after_set st now k v sc sid meta]
  simp [ContextEntry.is_expired]

/-- The effective key of a SESSION-scoped call with a nonempty session id
is the namespaced key. -/
theorem full_key_session (s k : String) (hs : s ≠ "") :
    ContextManager.full_key .SESSION (some s) k = s ++ ":" ++ k := by
  simp [ContextManager.full_key, strOptTruthy, hs]

/-- With no session id the effective key is the raw key, for any scope. -/
theorem full_key_no_sid (sc : ContextScope) (k : String) :
    ContextManager.full_key sc none k = k := by
  simp [ContextManager.full_key, strOptTruthy]

/-- set_context never touches the session table. -/
theorem set_context_sessions (st : CMState) (now : Nat) (k v : String)
    (sc : ContextScope) (sid : Option String) (ein : Option Nat)
    (meta : Option (List (String × String))) :
    ((ContextManager.set_context st now k v sc sid ein meta).2).sessions = st.sessions := by
  simp [ContextManager.set_context]

/-- A zero TTL is falsy in `if expires_in:`, so it behaves exactly like
passing no TTL at all. -/
theorem set_context_zero_ttl (st : CMState) (now : Nat) (k v : String)
    (sc : ContextScope) (sid : Option String)
    (meta : Option (List (String × String))) :
    ContextManager.set_context st now k v sc sid (some 0) meta =
    ContextManager.set_context st now k v sc sid none meta := by
  simp [ContextManager.set_context]

/-! ### Claim theorems -/

/-- C9: for every key, value and scope (with the matching session id
supplied to both calls), set_context with no TTL followed by get_context
of the same key and scope returns exactly the value that was set. -/
theorem set_get_roundtrip_all_scopes (st : CMState) (now now2 : Nat)
    (k v : String) (sc : ContextScope) (sid : Option String)
    (meta : Option (List (String × String))) (d : String) :
    (ContextManager.get_context
      (ContextManager.set_context st now k v sc sid none meta).2
      now2 k sc sid d).1 = v :=
  get_after_set st now now2 k v sc sid meta d

/-- After a start/stop cycle the cleanup-task field holds a cancelled
task and is never None again. -/
theorem stop_start_cancelled (st : CMState) :
    (ContextManager.stop (ContextManager.start st)).cleanup_task = some .cancelled := by
  rcases hct : st.cleanup_task with _ | t <;>
    simp [ContextManager.start, ContextManager.stop, hct]

/-- Once the cleanup task field holds a cancelled task, no sequence of
start/stop calls changes that. -/
theorem start_stop_fold_cancelled (ops : List Bool) : ∀ s : CMState,
    s.cleanup_task = some .cancelled →
    (start_stop_fold ops s).cleanup_task = some .cancelled := by
  induction ops with
  | nil => intro s hs; exact hs
  | cons b rest ih =>
    intro s hs
    rw [start_stop_fold, List.foldl_cons]
    cases b
    · have h2 : (ContextManager.stop s).cleanup_task = some .cancelled := by
        rw [ContextManager.stop]
        rcases hct : s.cleanup_task with _ | t <;> simp [hct] at hs ⊢
      exact ih (ContextManager.stop s) h2
    · have h2 : ContextManager.start s = s := by
        rw [ContextManager.start]
        simp [hs]
      rw [if_pos rfl, h2]
      exact ih s hs

/-- C10: once a ContextManager has been started and stopped, stop leaves
the cancelled task in the cleanup-task field, every later start returns
immediately without spawning a new task, and no sequence of further
start/stop calls ever yields a running sweep again. -/
theorem start_after_stop_noop (st : CMState) (ops : List Bool) :
    ContextManager.start (ContextManager.stop (ContextManager.start st)) =
      ContextManager.stop (ContextManager.start st) ∧
    (ContextManager.stop (ContextManager.start st)).cleanup_task = some .cancelled ∧
    (start_stop_fold ops (ContextManager.stop (ContextManager.start st))).cleanup_task
      = some .cancelled := by
  have h1 := stop_start_cancelled st
  refine ⟨?_, h1, start_stop_fold_cancelled ops _ h1⟩
  rw [ContextManager.start]
  simp [h1]

/-- C4: get_context never returns the value of an entry whose expires_at
is before the current time; the expired entry is deleted from its scope
table and the caller-supplied default is returned. -/
theorem get_context_never_returns_expired (st : CMState) (now : Nat)
    (k : String) (sc : ContextScope) (sid : Option String) (d : String)
    (entry : ContextEntry) (t : Nat)
    (hfound : dictLookup (st.contexts.get sc)
      (ContextManager.full_key sc sid k) = some entry)
    (hexp : entry.expires_at = some t) (hlt : t < now) :
    (ContextManager.get_context st now k sc sid d).1 = d ∧
    dictLookup
      (((ContextManager.get_context st now k sc sid d).2).contexts.get sc)
      (ContextManager.full_key sc sid k) = none := by
  have hexpired : entry.is_expired now = true := by
    rw [ContextEntry.is_expired, hexp]
    simpa using hlt
  rw [ContextManager.get_context]
  simp only [hfound, hexpired, if_true]
  refine ⟨by simp, ?_⟩
  rw [Contexts_get_put_self]
  exact dictLookup_dictDelete_self _ _

/-- Witness for C4 at a concrete expired TASK entry. -/
theorem get_context_never_returns_expired_witness :
    (ContextManager.get_context cmExp 9 "k" .TASK none "d").1 = "d" ∧
    dictLookup
      (((ContextManager.get_context cmExp 9 "k" .TASK none "d").2).contexts.get .TASK)
      (ContextManager.full_key .TASK none "k") = none :=
  get_context_never_returns_expired cmExp 9 "k" .TASK none "d"
    { key := "k", value := "v", scope := .TASK, created_at := 5, expires_at := some 8 }
    8 (by decide) rfl (by decide)

/-- C2 counterexample: set_context with expires_in = 0 under TASK scope
followed immediately by get_context returns the stored value, not the
caller-supplied default, and the entry stays counted in the TASK scope
stats, contradicting the claimed immediate expiry. -/
theorem zero_ttl_counterexample :
    (ContextManager.get_context
      (ContextManager.set_context CMState.init 5 "k" "v" .TASK none (some 0) none).2
      5 "k" .TASK none "d").1 = "v" ∧
    ¬ ((ContextManager.get_context
      (ContextManager.set_context CMState.init 5 "k" "v" .TASK none (some 0) none).2
      5 "k" .TASK none "d").1 = "d") ∧
    (ContextManager.get_stats
      (ContextManager.set_context CMState.init 5 "k" "v" .TASK none (some 0) none).2).context_counts
      = [("session", 0), ("user", 0), ("global", 0), ("task", 1)] := by
  decide

/-- C2 amended: a zero expires_in is falsy and treated as no TTL: the
entry is stored without an expiry, get_context at any later time returns
the stored value, and the entry remains present in (and counted by) the
TASK scope table. -/
theorem zero_ttl_amended (st : CMState) (now now2 : Nat) (k v : String)
    (sid : Option String) (meta : Option (List (String × String)))
    (d : String) :
    (ContextManager.get_context
      (ContextManager.set_context st now k v .TASK sid (some 0) meta).2
      now2 k .TASK sid d).1 = v ∧
    dictLookup
      (((ContextManager.set_context st now k v .TASK sid (some 0) meta).2).contexts.get .TASK)
      (ContextManager.full_key .TASK sid k) =
      some { key := ContextManager.full_key .TASK sid k, value := v,
             scope := .TASK, created_at := now, expires_at := none,
             metadata := meta.getD [] } ∧
    dictLookup
      (ContextManager.get_stats
        (ContextManager.set_context st now k v .TASK sid (some 0) meta).2).context_counts
      "task" =
      some (((ContextManager.set_context st now k v .TASK sid (some 0) meta).2).contexts.get .TASK).length ∧
    1 ≤ (((ContextManager.set_context st now k v .TASK sid (some 0) meta).2).contexts.get .TASK).length := by
  rw [set_context_zero_ttl]
  refine ⟨get_after_set st now now2 k v .TASK sid meta d,
    lookup_after_set st now k v .TASK sid meta, ?_, ?_⟩
  · simp +decide [ContextManager.get_stats, dictLookup, Contexts.get]
  · exact dictLookup_some_pos _ _ _ (lookup_after_set st now k v .TASK sid meta)

/-- C3 counterexample: an entry stored under SESSION scope through
session s0 is reachable by get_context without supplying any session id,
by passing the raw namespaced key, so session-scoped entries are not only
reachable via their owning session id. -/
theorem session_key_reachable_without_sid :
    (ContextManager.get_context
      (ContextManager.set_context CMState.init 0 "k" "v" .SESSION (some "s0") none none).2
      0 "s0:k" .SESSION none "d").1 = "v" ∧
    ¬ ((ContextManager.get_context
      (ContextManager.set_context CMState.init 0 "k" "v" .SESSION (some "s0") none none).2
      0 "s0:k" .SESSION none "d").1 = "d") := by
  decide

/-- C3 amended: a SESSION-scoped entry set through session s with key k
lives under the namespaced key "s:k": it is returned by get_context with
the owning session id, and equally by get_context on the raw namespaced
key with no session id; for a registered session, end_session deletes
every SESSION-scope entry carrying the namespace prefix of that session, so no
key set through the session survives its end. -/
theorem session_namespacing_amended :
    (∀ (st : CMState) (now now2 : Nat) (k v s : String)
        (meta : Option (List (String × String))) (d : String),
      (ContextManager.get_context
        (ContextManager.set_context st now k v .SESSION (some s) none meta).2
        now2 k .SESSION (some s) d).1 = v) ∧
    (∀ (st : CMState) (now now2 : Nat) (k v s : String)
        (meta : Option (List (String × String))) (d : String), s ≠ "" →
      (ContextManager.get_context
        (ContextManager.set_context st now k v .SESSION (some s) none meta).2
        now2 (s ++ ":" ++ k) .SESSION none d).1 = v) ∧
    (∀ (st : CMState) (s u key2 : String),
      dictLookup st.sessions s = some u →
      pyStartswith key2 (s ++ ":") = true →
      dictLookup ((ContextManager.end_session st s).contexts.session_contexts) key2 = none) ∧
    (∀ (st : CMState) (now now2 : Nat) (k v s u : String)
        (meta : Option (List (String × String))) (d : String),
      dictLookup st.sessions s = some u → s ≠ "" →
      (ContextManager.get_context
        (ContextManager.end_session
          (ContextManager.set_context st now k v .SESSION (some s) none meta).2 s)
        now2 k .SESSION (some s) d).1 = d) := by
  refine ⟨?_, ?_, ?_, ?_⟩
  · intro st now now2 k v s meta d
    exact get_after_set st now now2 k v .SESSION (some s) meta d
  · intro st now now2 k v s meta d hs
    rw [ContextManager.get_context]
    have hfk : ContextManager.full_key .SESSION none (s ++ ":" ++ k) = s ++ ":" ++ k :=
      full_key_no_sid _ _
    have hlook := lookup_after_set st now k v .SESSION (some s) meta
    rw [full_key_session s k hs] at hlook
    simp only [hfk, hlook]
    simp [ContextEntry.is_expired]
  · intro st s u key2 hsess hpre
    rw [ContextManager.end_session, hsess]
    simp only
    exact dictLookup_filter_pred _ (fun x => pyStartswith x (s ++ ":")) key2 hpre
  · intro st now now2 k v s u meta d hsess hs
    have hsess2 : dictLookup ((ContextManager.set_context st now k v .SESSION (some s) none meta).2).sessions s = some u := by
      rw [set_context_sessions]; exact hsess
    rw [ContextManager.get_context, ContextManager.end_session, hsess2]
    simp only [full_key_session s k hs]
    rw [show ({ (ContextManager.set_context st now k v .SESSION (some s) none meta).2 with
          sessions := dictDelete ((ContextManager.set_context st now k v .SESSION (some s) none meta).2).sessions s,
          contexts := { ((ContextManager.set_context st now k v .SESSION (some s) none meta).2).contexts with
            session_contexts := ((ContextManager.set_context st now k v .SESSION (some s) none meta).2).contexts.session_contexts.filter
              (fun p => !(pyStartswith p.1 (s ++ ":"))) } } : CMState).contexts.get .SESSION
        = ((ContextManager.set_context st now k v .SESSION (some s) none meta).2).contexts.session_contexts.filter
              (fun p => !(pyStartswith p.1 (s ++ ":"))) from rfl]
    rw [dictLookup_filter_pred _ (fun x => pyStartswith x (s ++ ":")) (s ++ ":" ++ k)
      (pyStartswith_append (s ++ ":") k)]

/-- Witness for C3: concrete session s0, key purged by end_session and
round-trip through the owning session id. -/
theorem session_namespacing_witness :
    (ContextManager.get_context
      (ContextManager.end_session
        (ContextManager.set_context (ContextManager.create_session CMState.init 0 "u" "s0").2
          0 "k" "v" .SESSION (some "s0") none none).2 "s0")
      0 "k" .SESSION (some "s0") "d").1 = "d" :=
  session_namespacing_amended.2.2.2
    (ContextManager.create_session CMState.init 0 "u" "s0").2
    0 0 "k" "v" "s0" "u" none "d" (by decide) (by decide)

/-- C1 (code bug): publishing two structurally different NORMAL-priority
events back to back from a fresh bus. The first publish succeeds; the
second hits the TypeError that heappush raises when the tuple comparison
falls through to the unordered Event values, so publish returns false,
the event never reaches the history, and the heap is left holding the raw
appended item with the heap order unrepaired — equal-priority events are
never enqueued together, so FIFO delivery within a priority cannot
happen. -/
theorem publish_equal_priority_typeerror :
    EventBus.publish_all BusState.init [evN, evN2] =
      ([true, false],
        { subscribers := [], queue := [(3, evN), (3, evN2)], running := true, history := [evN] }) := by
  decide

/-- C5: a raising handler does not prevent sibling handlers of the same
event from being invoked (every subscribed handler appears with its own
outcome in the distribution results), the dispatch loop processes the
following events regardless, and the publish results are computed without
any dependence on handler behaviour. -/
theorem handler_isolation :
    (∀ (behavior : EventBus.HandlerBehavior) (subs : List (String × List Nat))
        (e : Event) (lst : List Nat) (hbad hgood : Nat) (msg : String),
      dictLookup subs e.type = some lst → hbad ∈ lst → hgood ∈ lst →
      behavior hbad e = .error msg →
      (hgood, behavior hgood e) ∈ EventBus.distribute_event behavior subs e) ∧
    (∀ (behavior : EventBus.HandlerBehavior) (subs : List (String × List Nat))
        (e : Event) (rest : List Event),
      EventBus.process_events behavior subs (e :: rest) =
        (e, EventBus.distribute_event behavior subs e) ::
          EventBus.process_events behavior subs rest) ∧
    (∀ (b1 b2 : EventBus.HandlerBehavior) (st : BusState) (events : List Event),
      (EventBus.run b1 st events).1 = (EventBus.run b2 st events).1) := by
  refine ⟨?_, ?_, ?_⟩
  · intro behavior subs e lst hbad hgood msg hlook hmb hmg herr
    rw [EventBus.distribute_event]
    simp only [hlook]
    exact List.mem_map_of_mem _ hmg
  · intro behavior subs e rest
    rfl
  · intro b1 b2 st events
    rfl

/-- Witness for C5: two handlers on one type, handler 0 raising; handler
1 is still invoked with a normal outcome. -/
theorem handler_isolation_witness :
    (1, Except.ok ()) ∈ EventBus.distribute_event behW [("n", [0, 1])] evN :=
  handler_isolation.1 behW [("n", [0, 1])] evN [0, 1] 0 1 "boom"
    (by decide) (by decide) (by decide) rfl

/-- A first subscribe of a new handler returns true and appends it. -/
theorem subscribe_new (st : BusState) (t : String) (h : Nat)
    (hnot : h ∉ subscribers_of st t) :
    (EventBus.subscribe st t h).1 = true ∧
    dictLookup ((EventBus.subscribe st t h).2).subscribers t =
      some (subscribers_of st t ++ [h]) := by
  rcases hlk : dictLookup st.subscribers t with _ | lst0
  · simp [EventBus.subscribe, hlk, dictLookup_dictSet_self, subscribers_of]
  · have hn2 : h ∉ lst0 := by
      rw [subscribers_of, hlk] at hnot
      exact hnot
    simp [EventBus.subscribe, hlk, hn2, dictLookup_dictSet_self, subscribers_of]

/-- A duplicate subscribe returns false and changes nothing. -/
theorem subscribe_dup (st : BusState) (t : String) (h : Nat) (lst : List Nat)
    (hlk : dictLookup st.subscribers t = some lst) (hmem : h ∈ lst) :
    EventBus.subscribe st t h = (false, st) := by
  simp [EventBus.subscribe, hlk, hmem]

/-- C6: subscribing a new handler returns true, an identical second
subscribe returns false and leaves the subscriber table unchanged, the
handler appears exactly once in the list, and every matching dispatched
event invokes it exactly once. -/
theorem subscribe_idempotent (st : BusState) (t : String) (h : Nat)
    (hnotin : h ∉ subscribers_of st t) :
    (EventBus.subscribe st t h).1 = true ∧
    (EventBus.subscribe (EventBus.subscribe st t h).2 t h).1 = false ∧
    ((EventBus.subscribe (EventBus.subscribe st t h).2 t h).2).subscribers
      = ((EventBus.subscribe st t h).2).subscribers ∧
    (subscribers_of (EventBus.subscribe st t h).2 t).count h = 1 ∧
    (∀ (behavior : EventBus.HandlerBehavior) (e : Event), e.type = t →
      (EventBus.distribute_event behavior
        ((EventBus.subscribe st t h).2).subscribers e).countP
        (fun p => p.1 == h) = 1) := by
  obtain ⟨h1, h2⟩ := subscribe_new st t h hnotin
  have hmem : h ∈ subscribers_of st t ++ [h] := by simp
  have hdup := subscribe_dup (EventBus.subscribe st t h).2 t h _ h2 hmem
  have hcountP : (subscribers_of st t ++ [h]).countP (fun x => x == h) = 1 := by
    rw [List.countP_append]
    have hz : (subscribers_of st t).countP (fun x => x == h) = 0 := by
      rw [List.countP_eq_zero]
      intro a ha hae
      rw [beq_iff_eq] at hae
      subst hae
      exact hnotin ha
    simp [hz]
  refine ⟨h1, by rw [hdup], by rw [hdup], ?_, ?_⟩
  · rw [subscribers_of, h2]
    simpa [List.count] using hcountP
  · intro behavior e he
    rw [EventBus.distribute_event, he]
    simp only [h2]
    rw [List.countP_map]
    exact hcountP

/-- Witness for C6: a fresh bus, one type, handler 7. -/
theorem subscribe_idempotent_witness :
    (EventBus.subscribe BusState.init "n" 7).1 = true ∧
    (EventBus.subscribe (EventBus.subscribe BusState.init "n" 7).2 "n" 7).1 = false ∧
    ((EventBus.subscribe (EventBus.subscribe BusState.init "n" 7).2 "n" 7).2).subscribers
      = ((EventBus.subscribe BusState.init "n" 7).2).subscribers ∧
    (subscribers_of (EventBus.subscribe BusState.init "n" 7).2 "n").count 7 = 1 ∧
    (∀ (behavior : EventBus.HandlerBehavior) (e : Event), e.type = "n" →
      (EventBus.distribute_event behavior
        ((EventBus.subscribe BusState.init "n" 7).2).subscribers e).countP
        (fun p => p.1 == 7) = 1) :=
  subscribe_idempotent BusState.init "n" 7 (by decide)

/-- Any sequence of publishes keeps the history within the cap. -/
theorem publish_all_history_le (events : List Event) : ∀ st : BusState,
    st.history.length ≤ max_history →
    ((EventBus.publish_all st events).2).history.length ≤ max_history := by
  induction events with
  | nil => intro st hh; exact hh
  | cons e rest ih =>
    intro st hh
    rw [EventBus.publish_all]
    exact ih _ (publish_history_le st e hh)

/-- Publishing any 1001 events from a fresh bus, with the dispatch loop
draining between publishes, leaves a history of exactly the last 1000. -/
theorem publish_drain_scenario (l : List Event) (hl : l.length = 1001) :
    (l.foldl publish_drain BusState.init).history = l.drop 1 := by
  obtain ⟨hh, -⟩ := foldl_publish_drain l BusState.init rfl
  rw [hh]
  have hinit : BusState.init.history = [] := rfl
  rw [hinit]
  have hcap := (foldl_capstep max_history histStep histStep_spec l [] (by simp)).1
  rw [hcap]
  simp [hl, max_history]

/-- C7 counterexample: with a nonempty history, get_event_history with
limit = 0 returns the whole history rather than a sequence capped at the
given limit. -/
theorem history_limit_zero_counterexample :
    EventBus.get_event_history busH none 0 = [evN] ∧
    ¬ ((EventBus.get_event_history busH none 0).length ≤ 0) := by
  decide

/-- C7 amended: the history never exceeds 1000 events over any sequence
of publishes; publishing 1001 events (dispatch draining in between)
leaves exactly the last 1000, oldest evicted first; and
get_event_history returns a most-recent-last suffix of the optionally
filtered history, capped at the given limit whenever the limit is
nonzero, while a zero limit disables the cap and returns everything. -/
theorem history_cap_amended :
    (∀ (st : BusState) (events : List Event),
      st.history.length ≤ max_history →
      ((EventBus.publish_all st events).2).history.length ≤ max_history) ∧
    (∀ l : List Event, l.length = 1001 →
      (l.foldl publish_drain BusState.init).history = l.drop 1 ∧
      (l.foldl publish_drain BusState.init).history.length = 1000) ∧
    (∀ (st : BusState) (ot : Option String) (limit : Nat),
      EventBus.get_event_history st ot limit <:+
        (if strOptTruthy ot then st.history.filter (fun e => e.type == ot.getD "")
         else st.history) ∧
      (limit ≠ 0 → (EventBus.get_event_history st ot limit).length ≤ limit) ∧
      (limit = 0 → EventBus.get_event_history st ot limit =
        (if strOptTruthy ot then st.history.filter (fun e => e.type == ot.getD "")
         else st.history))) := by
  refine ⟨fun st events hh => publish_all_history_le events st hh, ?_, ?_⟩
  · intro l hl
    refine ⟨publish_drain_scenario l hl, ?_⟩
    rw [publish_drain_scenario l hl]
    simp [hl]
  · intro st ot limit
    rw [EventBus.get_event_history]
    by_cases hl : limit = 0
    · simp [hl]
    · simp only [hl, ne_eq, not_false_eq_true, if_true]
      refine ⟨List.drop_suffix _ _, fun _ => ?_, fun hc => hc.elim⟩
      rw [List.length_drop]
      omega

/-- Witness for C7: the cap applies at a nonzero limit and after one more
publish on a short history; the 1001-publish scenario keeps the last
1000. -/
theorem history_cap_amended_witness :
    ((EventBus.publish_all busH [evN2]).2).history.length ≤ max_history ∧
    (evs1001.foldl publish_drain BusState.init).history = evs1001.drop 1 ∧
    (EventBus.get_event_history busH none 5).length ≤ 5 :=
  ⟨history_cap_amended.1 busH [evN2] (by decide),
   (history_cap_amended.2.1 evs1001 (by simp [evs1001])).1,
   (history_cap_amended.2.2 busH none 5).2.1 (by decide)⟩

/-- One add_to_conversation_history call: the stored history evolves by
convStep on the stamped message, the call returns true, and the (possibly
fresh) UserContext has its activity set to the current time. -/
theorem add_conv_step (st : CMState) (now : Nat) (uid : String)
    (msg : List (String × String)) :
    conv_history_of ((ContextManager.add_to_conversation_history st now uid msg).2) uid =
      convStep (conv_history_of st uid) (dictSet msg "timestamp" (toString now)) ∧
    (ContextManager.add_to_conversation_history st now uid msg).1 = true ∧
    (dictLookup
        ((ContextManager.add_to_conversation_history st now uid msg).2).user_contexts uid).map
      (fun uc => uc.last_activity) = some now := by
  rcases hlk : dictLookup st.user_contexts uid with _ | uc <;>
    exact ⟨by simp [ContextManager.add_to_conversation_history, conv_history_of, hlk,
        dictLookup_dictSet_self, convStep], rfl,
      by simp [ContextManager.add_to_conversation_history, hlk, dictLookup_dictSet_self]⟩

/-- Folding message appends: the stored history is the convStep fold of
the stamped messages. -/
theorem conv_fold (now : Nat) (uid : String)
    (msgs : List (List (String × String))) : ∀ st : CMState,
    conv_history_of
      (msgs.foldl
        (fun s m => (ContextManager.add_to_conversation_history s now uid m).2) st) uid =
      (msgs.map (fun m => dictSet m "timestamp" (toString now))).foldl convStep
        (conv_history_of st uid) := by
  induction msgs with
  | nil => intro st; rfl
  | cons m rest ih =>
    intro st
    rw [List.foldl_cons, List.map_cons, List.foldl_cons,
      ih ((ContextManager.add_to_conversation_history st now uid m).2),
      (add_conv_step st now uid m).1]

/-- C8: every call keeps the conversation history of a user within 1000
entries (oldest first to go) and returns true; 1001 appends from a fresh
manager leave exactly the last 1000 stamped messages, the earliest
dropped; the call creates the UserContext when missing and stamps
last_activity with the current time. -/
theorem conversation_history_bound :
    (∀ (st : CMState) (now : Nat) (uid : String) (msg : List (String × String)),
      (conv_history_of st uid).length ≤ 1000 →
      (ContextManager.add_to_conversation_history st now uid msg).1 = true ∧
      (conv_history_of
        ((ContextManager.add_to_conversation_history st now uid msg).2) uid).length ≤ 1000) ∧
    (∀ (now : Nat) (uid : String) (msgs : List (List (String × String))),
      msgs.length = 1001 →
      conv_history_of
        (msgs.foldl
          (fun s m => (ContextManager.add_to_conversation_history s now uid m).2)
          CMState.init) uid =
        (msgs.map (fun m => dictSet m "timestamp" (toString now))).drop 1 ∧
      (conv_history_of
        (msgs.foldl
          (fun s m => (ContextManager.add_to_conversation_history s now uid m).2)
          CMState.init) uid).length = 1000) ∧
    (∀ (st : CMState) (now : Nat) (uid : String) (msg : List (String × String)),
      ∃ uc, dictLookup
          ((ContextManager.add_to_conversation_history st now uid msg).2).user_contexts uid
          = some uc ∧ uc.last_activity = now) := by
  refine ⟨?_, ?_, ?_⟩
  · intro st now uid msg hle
    obtain ⟨hstep, htrue, -⟩ := add_conv_step st now uid msg
    rw [hstep]
    exact ⟨htrue, (convStep_spec _ _ hle).2⟩
  · intro now uid msgs hl
    have hfold := conv_fold now uid msgs CMState.init
    have hinit : conv_history_of CMState.init uid = [] := rfl
    rw [hinit] at hfold
    have hcap := (foldl_capstep 1000 convStep convStep_spec
      (msgs.map (fun m => dictSet m "timestamp" (toString now))) [] (by simp)).1
    rw [hcap] at hfold
    simp only [List.nil_append, List.length_nil, List.length_map, hl,
      Nat.zero_add] at hfold
    rw [hfold]
    simp [hl]
  · intro st now uid msg
    have hmap := (add_conv_step st now uid msg).2.2
    rcases hlk2 : dictLookup
        ((ContextManager.add_to_conversation_history st now uid msg).2).user_contexts uid
      with _ | uc
    · rw [hlk2] at hmap
      simp at hmap
    · rw [hlk2] at hmap
      simp at hmap
      exact ⟨uc, rfl, hmap⟩

/-- Witness for C8: one append on a fresh manager and the 1001-message
scenario. -/
theorem conversation_history_bound_witness :
    (ContextManager.add_to_conversation_history CMState.init 7 "u" [("c", "x")]).1 = true ∧
    conv_history_of
      (msgs1001.foldl
        (fun s m => (ContextManager.add_to_conversation_history s 7 "u" m).2)
        CMState.init) "u" =
      (msgs1001.map (fun m => dictSet m "timestamp" (toString 7))).drop 1 :=
  ⟨(conversation_history_bound.1 CMState.init 7 "u" [("c", "x")] (by decide)).1,
   (conversation_history_bound.2.1 7 "u" msgs1001 (by simp [msgs1001])).1⟩

end Jarvis
